import Mathlib

/-!
Verification of the `cloudworker-router` core (`src/Router.ts`) against its
specification.  The router is embedded shallowly: the route table is a list,
the `matches` generator becomes a list of the yields it produces in order,
and the async `handle` dispatcher becomes a total function on a pure request
model.  The external collaborators (the `path-to-regexp` pattern compiler,
URL parsing, and the web `Response` constructor) are modelled through narrow
interfaces, as the spec prescribes.
-/

namespace CloudworkerRouter

/-- Method: the closed enumeration of concrete HTTP methods
(`src/Router.ts` line 11). -/
inductive Method where
  | GET | POST | PUT | PATCH | DELETE | HEAD | OPTIONS
deriving DecidableEq, Repr

/-- The method slot of a route: a concrete method or the `ALL` wildcard
(`Method | MethodWildcard` in the source). -/
inductive MethodW where
  | method (m : Method)
  | ALL
deriving DecidableEq, Repr

/-- Render a method the way the string literals of the source spell it
(used by `allowedMethods` when joining the `Allow` list). -/
def Method.toString : Method → String
  | .GET => "GET"
  | .POST => "POST"
  | .PUT => "PUT"
  | .PATCH => "PATCH"
  | .DELETE => "DELETE"
  | .HEAD => "HEAD"
  | .OPTIONS => "OPTIONS"

/-- A capture key produced by the pattern compiler; only its `name` is read
by the router (`keysToParams`).  JS object property names are strings, so
numeric names of unnamed groups appear as strings here ("0", "1", ...). -/
structure Key where
  name : String
deriving DecidableEq, Repr

/-- Params: a JS object mapping capture-key names to strings, modelled as
an insertion-ordered association list. -/
abbrev Params := List (String × String)

/-- JS object property assignment `obj[k] = v`: an existing key keeps its
position and gets the new value, a new key is appended. -/
def setParam (ps : Params) (k v : String) : Params :=
  if ps.any (fun p => p.1 = k) then
    ps.map (fun p => if p.1 = k then (k, v) else p)
  else ps ++ [(k, v)]

/-- RouteOptions (`TokensToRegexpOptions`): passed through to the pattern
compiler; the router itself only ever inspects `end` (spelled `end_` because
`end` is reserved in Lean).  `none` models an absent (undefined) field. -/
structure RouteOptions where
  sensitive : Option Bool := none
  strict : Option Bool := none
  end_ : Option Bool := none
  start : Option Bool := none
  delimiter : Option String := none
deriving DecidableEq, Repr

/-- A compiled matcher (`RegExp`): `exec` returns `none` for no match, or
the match array — index 0 the full match, later entries the captures, an
entry being `none` for an undefined (unmatched optional) capture. -/
abbrev Regexp := String → Option (List (Option String))

/-- The payload of a thrown JS error, treated as opaque data. -/
abbrev Error := String

/-- The response abstraction (status, headers, body); `body = none` models a
`null` body, `body = some ""` an empty-string body.  Constructed fresh on
the error/not-found/no-content paths and copied-with-overrides for the HEAD
body strip, exactly the two uses the router makes of it. -/
structure Response where
  status : Nat
  headers : List (String × String)
  body : Option String
deriving DecidableEq, Repr

/-- The inbound request: `handle` parses the URL once into `pathname` and
`searchParams`; URL parsing is external, so the model carries the parsed
parts.  The field `method` models the source cast of request.method. -/
structure Request where
  method : Method
  pathname : String
  query : List (String × String) := []
  headers : List (String × String) := []
deriving Repr

/-- The per-request context threaded to handlers.  The opaque `env`,
`event` and free-form `state` fields are passed through uninspected by the
router and carry no control-flow weight, so they are elided here. -/
structure Ctx where
  request : Request
  query : List (String × String)
  headers : List (String × String)
  params : Params

/-- RouteCallback: a function of (response, error) returning a response; it may itself throw. -/
abbrev RouteCallback := Response → Option Error → Except Error Response

/-- What awaiting a handler can produce: a `Response`, a callback function,
an empty (`undefined`) result, or a thrown error. -/
inductive HandlerResult where
  | response (r : Response)
  | callback (cb : RouteCallback)
  | empty
  | thrown (e : Error)

/-- Handler (the source Handler of Env): an async function of the context.  Handlers are
modelled as pure functions; the sequential await semantics of the spec make the
async layer invisible to the control flow verified here. -/
abbrev Handler := Ctx → HandlerResult

/-- A registered route (`interface Route<Handler>`). -/
structure Route where
  method : MethodW
  path : String
  regexp : Regexp
  options : RouteOptions
  keys : List Key
  handler : Handler

/-- RouteMatch: a route plus extracted `params` and optionally the raw
`RegExpExecArray` (`matches`). -/
structure RouteMatch extends Route where
  params : Params
  matches_ : Option (List (Option String)) := none

/-- keysToParams (`src/Router.ts` lines 262-273): walk the exec array
from index 1, binding capture *i* to the name of key *i-1*, skipping undefined
captures.  The compiler contract guarantees one key per capture group, so
the zip never truncates on compiler-produced inputs. -/
def keysToParams (marr : List (Option String)) (keys : List Key) : Params :=
  ((marr.drop 1).zip keys).foldl
    (fun params vk =>
      match vk.1 with
      | some v => setParam params vk.2.name v
      | none => params)
    []

/-- The yields the `matches` generator produces for one route of the table
(the body of the `for` loop, lines 168-182): method filter first, then the
two additive fast-path shortcuts, then the full regexp evaluation. -/
def routeCandidates (method : Method) (path : String) (route : Route) :
    List RouteMatch :=
  if route.method ≠ .method method ∧ route.method ≠ .ALL then []
  else
    (if route.path = "(.*)" then
      [{ toRoute := route, params := [("0", route.path)] }]
    else []) ++
    (if route.path = "/" ∧ route.options.end_ = some false then
      [{ toRoute := route, params := [] }]
    else []) ++
    (match route.regexp path with
     | none => []
     | some ms =>
       if ms = [] then []
       else [{ toRoute := route, params := keysToParams ms route.keys,
               matches_ := some ms }])

/-- Router.matches (lines 167-185): the full, order-preserving sequence
of yields the generator produces for a request, one table pass. -/
def matchesList (routes : List Route) (method : Method) (path : String) :
    List RouteMatch :=
  routes.flatMap (routeCandidates method path)

/-- Build the context a handler is invoked with: the shared per-request
context with `ctx.params` overwritten by the params of the current match. -/
def mkCtx (req : Request) (params : Params) : Ctx :=
  { request := req, query := req.query, headers := req.headers,
    params := params }

/-- The default error response the source constructs fresh: status 500, body "Server Error". -/
def serverErrorResponse : Response :=
  { status := 500, headers := [], body := some "Server Error" }

/-- The not-found response the source constructs fresh: status 404, body "Not Found". -/
def notFoundResponse : Response :=
  { status := 404, headers := [], body := some "Not Found" }

/-- The `for await (const callback of callbacks)` finalization loop
(lines 220-226): each callback may replace the response; a throwing
callback replaces the current error, leaves the response unchanged, and
the loop continues. -/
def runCallbacks : List RouteCallback → Response → Option Error →
    Response × Option Error
  | [], r, e => (r, e)
  | cb :: rest, r, e =>
    match cb r e with
    | .ok r' => runCallbacks rest r' e
    | .error err => runCallbacks rest r (some err)

/-- Finalization of a terminating result (lines 219-233): run the
accumulated callbacks, then strip the body for HEAD requests
(the source builds a fresh response from the old status and headers with an empty-string body). -/
def finalize (method : Method) (cbs : List RouteCallback) (r : Response)
    (e : Option Error) : Response :=
  let r' := (runCallbacks cbs r e).1
  if method = .HEAD then { r' with body := some "" } else r'

/-- The `for await (const match of matches)` dispatch loop of `handle`
(lines 202-242): invoke the handler of each candidate with the params of that match; a
thrown error is contained as a 500 response which then terminates; a
`Response` terminates through finalization; a callback is accumulated; an
empty result is skipped; an exhausted sequence yields the 404. -/
def handleLoop (req : Request) : List RouteMatch → List RouteCallback →
    Response
  | [], _ => notFoundResponse
  | m :: ms, cbs =>
    match m.handler (mkCtx req m.params) with
    | .response r => finalize req.method cbs r none
    | .thrown e => finalize req.method cbs serverErrorResponse (some e)
    | .callback cb => handleLoop req ms (cbs ++ [cb])
    | .empty => handleLoop req ms cbs

/-- Router.handle (lines 187-243). -/
def handle (routes : List Route) (req : Request) : Response :=
  handleLoop req (matchesList routes req.method req.pathname) []

/-- The `Allow` key list `allowedMethods` accumulates: a JS object used as
an ordered set — re-adding a present key neither duplicates nor moves it. -/
def addAllow (l : List String) (m : String) : List String :=
  if m ∈ l then l else l ++ [m]

/-- The table scan of `allowedMethods` (lines 143-156): skip `ALL` routes,
keep every concrete method whose regexp matches the path, seeded with
`OPTIONS`. -/
def allowedList (routes : List Route) (pathname : String) : List String :=
  routes.foldl
    (fun allow route =>
      match route.method with
      | .ALL => allow
      | .method m =>
        match route.regexp pathname with
        | none => allow
        | some ms => if ms = [] then allow else addAllow allow m.toString)
    ["OPTIONS"]

/-- The response `allowedMethods` builds (lines 158-163): 204, null body,
the collected methods joined into the `allow` header. -/
def allowedMethodsResponse (routes : List Route) (pathname : String) :
    Response :=
  { status := 204, body := none,
    headers := [("allow", String.intercalate ", " (allowedList routes pathname))] }

/-- Router.allowedMethods (lines 136-165): returns a handler closing over
the table. -/
def allowedMethods (routes : List Route) : Handler := fun ctx =>
  .response (allowedMethodsResponse routes ctx.request.pathname)

/-- The pattern-compiler capability (`pathToRegexp`): path template plus
options to either a synchronous failure or a matcher and ordered key list. -/
abbrev Compiler := String → RouteOptions → Except Error (Regexp × List Key)

/-- Router.push (lines 245-258), with the mutable `routes` field passed
as state: rewrite `*` to the catch-all `(.*)`, compile, append one route.
A compiler failure is the `pathToRegexp` throw of the source: it surfaces as the
`Option Error` component and the table component is the unchanged input. -/
def push (compile : Compiler) (routes : List Route) (method : MethodW)
    (path : String) (handler : Handler) (options : RouteOptions) :
    List Route × Option Error :=
  let path' := if path = "*" then "(.*)" else path
  match compile path' options with
  | .error e => (routes, some e)
  | .ok (regexp, keys) =>
    (routes ++ [{ method, path := path', regexp, options, keys, handler }],
     none)

/-- Router.all. -/
def all (compile : Compiler) (routes : List Route) (path : String)
    (handler : Handler) (options : RouteOptions) :
    List Route × Option Error :=
  push compile routes .ALL path handler options

/-- Router.get (lines 96-98): two chained pushes, GET then HEAD, same
path, handler and options; a throw in the first push aborts the chain. -/
def get (compile : Compiler) (routes : List Route) (path : String)
    (handler : Handler) (options : RouteOptions) :
    List Route × Option Error :=
  match push compile routes (.method .GET) path handler options with
  | (rs, some e) => (rs, some e)
  | (rs, none) => push compile rs (.method .HEAD) path handler options

/-- Router.post. -/
def post (compile : Compiler) (routes : List Route) (path : String)
    (handler : Handler) (options : RouteOptions) :
    List Route × Option Error :=
  push compile routes (.method .POST) path handler options

/-- Router.use (lines 131-133): an ALL-method catch-all. -/
def use (compile : Compiler) (routes : List Route) (handler : Handler)
    (options : RouteOptions) : List Route × Option Error :=
  push compile routes .ALL "*" handler options

/-- Modelled from the spec: the external Pattern Compiler collaborator
(`path-to-regexp`, absent from the repository).  Per the spec it "must fail
synchronously and immediately on malformed path templates" and returns a
matcher plus ordered key list.  This model covers the template shapes this
development evaluates: the catch-all `(.*)` matches every path capturing
the whole path under the unnamed key `0`; a static template matches exactly
itself with no captures; the malformed template `:` (a parameter marker
with no name) fails. -/
def specCompile : Compiler := fun path _opts =>
  if path = ":" then .error "Missing parameter name"
  else if path = "(.*)" then
    .ok (fun p => some [some p, some p], [⟨"0"⟩])
  else
    .ok (fun p => if p = path then some [some p] else none, [])

/-- The run of the dispatch loop over a block of candidates none of which
terminates the request: the callbacks it accumulates, in order, or `none`
when the handler of some candidate terminates (returns a response or throws). -/
def collectCallbacks (req : Request) : List RouteMatch →
    Option (List RouteCallback)
  | [] => some []
  | m :: ms =>
    match m.handler (mkCtx req m.params) with
    | .callback cb => (collectCallbacks req ms).map (cb :: ·)
    | .empty => collectCallbacks req ms
    | .response _ => none
    | .thrown _ => none

/-! ### Concrete artifacts used by witnesses and counterexamples -/

/-- A handler that answers 200 with the positional parameter `0` as body. -/
def cEcho : Handler := fun ctx =>
  .response { status := 200, headers := [], body := ctx.params.lookup "0" }

/-- A handler that throws. -/
def cThrow : Handler := fun _ => .thrown "boom"

/-- A middleware handler: defers by returning a callback. -/
def cMw : Handler := fun _ => .callback (fun r _ => .ok r)

/-- A callback that replaces the response status with 201. -/
def cbOk : RouteCallback := fun r _ => .ok { r with status := 201 }

/-- A callback that throws. -/
def cbThrow : RouteCallback := fun _ _ => .error "cberr"

/-- A callback that records the current error into a header. -/
def cbTag : RouteCallback := fun r e => .ok { r with headers := [("err", e.getD "-")] }

/-- The route `specCompile` builds for the catch-all template with
handler `cEcho`. -/
def c1r : Route :=
  { method := .ALL, path := "(.*)", regexp := fun p => some [some p, some p],
    options := {}, keys := [⟨"0"⟩], handler := cEcho }

/-- The fast-path candidate of `c1r`: parameter `0` bound to the template. -/
def c1fast : RouteMatch := { toRoute := c1r, params := [("0", "(.*)")] }

/-- The regexp candidate of `c1r` for path `p`. -/
def c1full (p : String) : RouteMatch :=
  { toRoute := c1r, params := [("0", p)], matches_ := some [some p, some p] }

/-- Two identical catch-all middleware registrations (`use` twice). -/
def c1table : List Route :=
  (use specCompile (use specCompile [] cEcho {}).1 cEcho {}).1

/-- The catch-all route with the throwing handler. -/
def cThrowRoute : Route :=
  { method := .ALL, path := "(.*)", regexp := fun p => some [some p, some p],
    options := {}, keys := [⟨"0"⟩], handler := cThrow }

/-- A table holding only the throwing catch-all route. -/
def cThrowTable : List Route := (push specCompile [] .ALL "*" cThrow {}).1

/-- Fast-path candidate of `cThrowRoute`. -/
def cT1 : RouteMatch := { toRoute := cThrowRoute, params := [("0", "(.*)")] }

/-- Regexp candidate of `cThrowRoute` for path `/zz`. -/
def cT2 : RouteMatch :=
  { toRoute := cThrowRoute, params := [("0", "/zz")],
    matches_ := some [some "/zz", some "/zz"] }

/-- A table holding a single middleware registration (`use`). -/
def c10table : List Route := (use specCompile [] cMw {}).1

/-- GET and POST registered at `/a` through the shorthands (the `get`
shorthand also adds HEAD). -/
def c5table : List Route :=
  (post specCompile (get specCompile [] "/a" cEcho {}).1 "/a" cEcho {}).1

/-- A single `GET *` registration with the echoing handler. -/
def c6table : List Route :=
  (push specCompile [] (.method .GET) "*" cEcho {}).1

/-- A GET request to `/foo`. -/
def c6req : Request := { method := .GET, pathname := "/foo" }

end CloudworkerRouter

namespace CloudworkerRouter

/-! ### Helper lemmas -/

theorem matchesList_append (rs1 rs2 : List Route) (method : Method)
    (path : String) :
    matchesList (rs1 ++ rs2) method path =
      matchesList rs1 method path ++ matchesList rs2 method path :=
  List.flatMap_append rs1 rs2 (routeCandidates method path)

theorem matchesList_take_drop (routes : List Route) (method : Method)
    (path : String) (j : Nat) :
    matchesList routes method path =
      matchesList (routes.take j) method path ++
        matchesList (routes.drop j) method path := by
  conv_lhs => rw [← List.take_append_drop j routes]
  exact matchesList_append ..

theorem runCallbacks_append (l1 l2 : List RouteCallback) (r : Response)
    (e : Option Error) :
    runCallbacks (l1 ++ l2) r e =
      runCallbacks l2 (runCallbacks l1 r e).1 (runCallbacks l1 r e).2 := by
  induction l1 generalizing r e with
  | nil => rfl
  | cons cb l1 ih =>
    cases hcb : cb r e with
    | ok r' =>
      simp only [List.cons_append, runCallbacks, hcb]
      exact ih r' e
    | error err =>
      simp only [List.cons_append, runCallbacks, hcb]
      exact ih r (some err)

theorem handleLoop_of_collect (req : Request) (pre : List RouteMatch)
    (cbs : List RouteCallback) (rest : List RouteMatch)
    (acc : List RouteCallback) (h : collectCallbacks req pre = some cbs) :
    handleLoop req (pre ++ rest) acc = handleLoop req rest (acc ++ cbs) := by
  induction pre generalizing cbs acc with
  | nil =>
    simp only [collectCallbacks, Option.some.injEq] at h
    subst h
    simp
  | cons m pre ih =>
    simp only [collectCallbacks] at h
    cases hm : m.handler (mkCtx req m.params) with
    | response r => rw [hm] at h; exact absurd h (by simp)
    | thrown e => rw [hm] at h; exact absurd h (by simp)
    | empty =>
      rw [hm] at h
      have h' : collectCallbacks req pre = some cbs := h
      have step : handleLoop req ((m :: pre) ++ rest) acc =
          handleLoop req (pre ++ rest) acc := by
        simp only [List.cons_append, handleLoop, hm]
        rfl
      rw [step, ih cbs acc h']
    | callback cb =>
      rw [hm] at h
      cases hc : collectCallbacks req pre with
      | none => rw [hc] at h; simp at h
      | some cbs' =>
        rw [hc] at h
        have h2 : cb :: cbs' = cbs := Option.some.inj h
        subst h2
        have step : handleLoop req ((m :: pre) ++ rest) acc =
            handleLoop req (pre ++ rest) (acc ++ [cb]) := by
          simp only [List.cons_append, handleLoop, hm]
          rfl
        rw [step, ih cbs' (acc ++ [cb]) hc, List.append_assoc]
        rfl

/-! ### Claim theorems -/

/-- C1: match candidates are produced in strict registration order — when
the routes at table positions `i < j` both yield candidates for a request,
every candidate of route `i` occupies an earlier position in the yielded
sequence than any candidate of route `j`; no priority scoring reorders
them. -/
theorem matches_strict_registration_order (routes : List Route)
    (method : Method) (path : String) (i j : Nat)
    (hi : i < routes.length) (hj : j < routes.length) (hij : i < j)
    (mi mj : RouteMatch)
    (hmi : mi ∈ routeCandidates method path (routes.get ⟨i, hi⟩))
    (hmj : mj ∈ routeCandidates method path (routes.get ⟨j, hj⟩)) :
    ∃ a b : Nat, a < b ∧ (matchesList routes method path)[a]? = some mi ∧
      (matchesList routes method path)[b]? = some mj := by
  have hsplit := matchesList_take_drop routes method path j
  have hiP : mi ∈ matchesList (routes.take j) method path := by
    apply List.mem_flatMap.mpr
    refine ⟨routes.get ⟨i, hi⟩, ?_, hmi⟩
    have hlen : i < (routes.take j).length := by
      simp only [List.length_take]
      omega
    have hgt : (routes.take j).get ⟨i, hlen⟩ = routes.get ⟨i, hi⟩ :=
      List.getElem_take ..
    exact List.mem_iff_getElem.mpr ⟨i, hlen, hgt⟩
  have hjQ : mj ∈ matchesList (routes.drop j) method path := by
    apply List.mem_flatMap.mpr
    refine ⟨routes.get ⟨j, hj⟩, ?_, hmj⟩
    have hlen : 0 < (routes.drop j).length := by
      simp only [List.length_drop]
      omega
    have hgd : (routes.drop j).get ⟨0, hlen⟩ = routes.get ⟨j, hj⟩ := by
      show (routes.drop j)[0] = routes[j]
      rw [List.getElem_drop]
      congr 1
    exact List.mem_iff_getElem.mpr ⟨0, hlen, hgd⟩
  obtain ⟨a, ha, haeq⟩ := List.mem_iff_getElem.mp hiP
  obtain ⟨b, hb, hbeq⟩ := List.mem_iff_getElem.mp hjQ
  refine ⟨a, (matchesList (routes.take j) method path).length + b,
    by omega, ?_, ?_⟩
  · rw [hsplit, List.getElem?_append_left ha, List.getElem?_eq_getElem ha,
      haeq]
  · rw [hsplit, List.getElem?_append_right (by omega)]
    simp only [Nat.add_sub_cancel_left]
    rw [List.getElem?_eq_getElem hb, hbeq]

/-- Witness for C1: a table of two identical catch-all routes; the fast-path
candidate of the first route precedes the fast-path candidate of the second
in the yielded sequence. -/
theorem matches_strict_registration_order_witness :
    ∃ a b : Nat, a < b ∧ (matchesList c1table .GET "/w")[a]? = some c1fast ∧
      (matchesList c1table .GET "/w")[b]? = some c1fast :=
  matches_strict_registration_order c1table .GET "/w" 0 1 (by decide)
    (by decide) (by decide) c1fast c1fast (List.Mem.head _) (List.Mem.head _)

/-- C3: a request whose match sequence is empty — no registered route (and
in particular no ALL-wildcard route) accepts its method/path combination —
is answered with status 404 and body "Not Found". -/
theorem handle_unmatched_404 (routes : List Route) (req : Request)
    (h : matchesList routes req.method req.pathname = []) :
    handle routes req =
      { status := 404, headers := [], body := some "Not Found" } := by
  unfold handle
  rw [h]
  rfl

/-- Witness for C3: the empty table answers 404 Not Found. -/
theorem handle_unmatched_404_witness :
    handle [] { method := .GET, pathname := "/nope" } =
      { status := 404, headers := [], body := some "Not Found" } :=
  handle_unmatched_404 [] { method := .GET, pathname := "/nope" } rfl

/-- C8: callbacks run in accumulation order; a callback that throws has its
error captured (replacing the current one), the response from before it is
preserved unchanged, and the remaining callbacks still run with that
response and the new error. -/
theorem callback_error_containment (cbs₁ cbs₂ : List RouteCallback)
    (cb : RouteCallback) (r r₁ : Response) (e e₁ : Option Error)
    (err : Error) (h1 : runCallbacks cbs₁ r e = (r₁, e₁))
    (h2 : cb r₁ e₁ = .error err) :
    runCallbacks (cbs₁ ++ cb :: cbs₂) r e = runCallbacks cbs₂ r₁ (some err) := by
  rw [runCallbacks_append, h1]
  show runCallbacks (cb :: cbs₂) r₁ e₁ = _
  simp only [runCallbacks, h2]

/-- Witness for C8: `cbOk` rewrites the status, `cbThrow` throws — its error
is captured, the 201 response survives, and `cbTag` still runs with both. -/
theorem callback_error_containment_witness :
    runCallbacks [cbOk, cbThrow, cbTag] ⟨200, [], some "b"⟩ none =
      runCallbacks [cbTag] ⟨201, [], some "b"⟩ (some "cberr") :=
  callback_error_containment [cbOk] [cbTag] cbThrow ⟨200, [], some "b"⟩
    ⟨201, [], some "b"⟩ none none "cberr" rfl rfl

/-- C9 (amended): a `push` whose template fails to compile surfaces the
error of the compiler synchronously and leaves the table unchanged; a successful
`push` appends exactly one route and returns the updated router state.  The
`get` shorthand is two chained pushes: a compiler failure surfaces from it
with the table likewise unchanged (on success it appends two routes, GET
and HEAD — see the C4 theorem). -/
theorem push_registration_atomic (compile : Compiler) (routes : List Route)
    (mw : MethodW) (p : String) (h : Handler) (o : RouteOptions) :
    (∀ e, compile (if p = "*" then "(.*)" else p) o = .error e →
      push compile routes mw p h o = (routes, some e)) ∧
    (∀ re ks, compile (if p = "*" then "(.*)" else p) o = .ok (re, ks) →
      push compile routes mw p h o =
        (routes ++ [⟨mw, if p = "*" then "(.*)" else p, re, o, ks, h⟩],
         none)) ∧
    (∀ e, compile (if p = "*" then "(.*)" else p) o = .error e →
      get compile routes p h o = (routes, some e)) := by
  refine ⟨?_, ?_, ?_⟩
  · intro e he
    simp only [push, he]
  · intro re ks hok
    simp only [push, hok]
  · intro e he
    simp only [get, push, he]

/-- Witness for C9: the malformed template `:` is rejected with the table
unchanged; a well-formed template appends exactly one route. -/
theorem push_registration_atomic_witness :
    push specCompile [] (.method .POST) ":" cEcho {} =
      ([], some "Missing parameter name") ∧
    push specCompile [] .ALL "*" cEcho {} = ([c1r], none) := by
  constructor
  · exact (push_registration_atomic specCompile [] (.method .POST) ":" cEcho
      {}).1 "Missing parameter name" rfl
  · exact (push_registration_atomic specCompile [] .ALL "*" cEcho {}).2.1
      (fun p => some [some p, some p]) [⟨"0"⟩] rfl

/-- Counterexample for C9 as stated: the `get` shorthand is a registration
call of the API surface, yet a successful `get` appends two routes, not
exactly one. -/
theorem push_one_route_counterexample :
    (get specCompile [] "/a" cEcho {}).2 = none ∧
    (get specCompile [] "/a" cEcho {}).1.length ≠ 1 := by
  constructor
  · rfl
  · decide

/-- C2: when every candidate before some match `m` defers (middleware) or
returns nothing, accumulating callbacks `cbs`, and the handler of `m` throws,
`handle` contains the exception: it finalizes a 500 "Server Error" response
through the accumulated callbacks (which may replace it) and, with no
callbacks and a non-HEAD method, returns exactly that 500 response.  The
dispatcher never lets the exception escape: `handle` is a total function
into responses. -/
theorem handle_throwing_handler_500 (routes : List Route) (req : Request)
    (pre post : List RouteMatch) (m : RouteMatch) (cbs : List RouteCallback)
    (e : Error)
    (hms : matchesList routes req.method req.pathname = pre ++ m :: post)
    (hpre : collectCallbacks req pre = some cbs)
    (hm : m.handler (mkCtx req m.params) = .thrown e) :
    handle routes req = finalize req.method cbs serverErrorResponse (some e) ∧
    serverErrorResponse =
      { status := 500, headers := [], body := some "Server Error" } ∧
    (cbs = [] → req.method ≠ .HEAD → handle routes req = serverErrorResponse) := by
  have key : handle routes req =
      finalize req.method cbs serverErrorResponse (some e) := by
    unfold handle
    rw [hms, handleLoop_of_collect req pre cbs (m :: post) [] hpre]
    simp only [List.nil_append, handleLoop, hm]
  refine ⟨key, rfl, ?_⟩
  intro hcbs hne
  rw [key, hcbs]
  simp only [finalize, runCallbacks]
  rw [if_neg hne]

/-- Witness for C2: a table whose only route throws; the GET request gets
the plain 500 "Server Error" response. -/
theorem handle_throwing_handler_500_witness :
    handle cThrowTable { method := .GET, pathname := "/zz" } =
      serverErrorResponse := by
  have h := handle_throwing_handler_500 cThrowTable
    { method := .GET, pathname := "/zz" } [] [cT2] cT1 [] "boom" rfl rfl rfl
  exact h.2.2 rfl (by decide)

/-- C10: the HEAD body strip sits on the finalizing path only — a HEAD
request none of whose candidates terminates falls through to the 404
response, whose "Not Found" body is returned as-is, not stripped. -/
theorem head_unmatched_body_not_stripped (routes : List Route)
    (req : Request) (cbs : List RouteCallback) (hHead : req.method = .HEAD)
    (hall : collectCallbacks req
      (matchesList routes req.method req.pathname) = some cbs) :
    handle routes req =
      { status := 404, headers := [], body := some "Not Found" } ∧
    (some "Not Found" : Option String) ≠ some "" := by
  constructor
  · unfold handle
    have hstep := handleLoop_of_collect req
      (matchesList routes req.method req.pathname) cbs [] [] hall
    rw [List.append_nil] at hstep
    rw [hstep]
    rfl
  · decide

/-- Witness for C10: one middleware-only table; the HEAD request to an
unterminated path gets 404 with the un-stripped "Not Found" body. -/
theorem head_unmatched_body_not_stripped_witness :
    handle c10table { method := .HEAD, pathname := "/x" } =
      { status := 404, headers := [], body := some "Not Found" } :=
  (head_unmatched_body_not_stripped c10table
    { method := .HEAD, pathname := "/x" }
    [fun r _ => .ok r, fun r _ => .ok r] rfl rfl).1

/-- C4: `get P H` appends a GET route and a HEAD route with the same path,
matcher, options and handler, so a HEAD request whose path the matcher
accepts has a candidate carrying `H`; and on the finalizing path a HEAD
request has its response body emptied while the status and headers of the
callback-processed response are kept, whatever body the handler produced. -/
theorem get_registers_head_and_strips (compile : Compiler)
    (routes : List Route) (P : String) (H : Handler) (opts : RouteOptions)
    (re : Regexp) (ks : List Key)
    (hc : compile (if P = "*" then "(.*)" else P) opts = .ok (re, ks)) :
    get compile routes P H opts =
      (routes ++
        [{ method := .method .GET, path := if P = "*" then "(.*)" else P,
           regexp := re, options := opts, keys := ks, handler := H },
         { method := .method .HEAD, path := if P = "*" then "(.*)" else P,
           regexp := re, options := opts, keys := ks, handler := H }],
       none) ∧
    (∀ p ms, re p = some ms → ms ≠ [] →
      ∃ rm, rm ∈ matchesList (get compile routes P H opts).1 .HEAD p ∧
        rm.handler = H ∧ rm.method = .method .HEAD) ∧
    (∀ cbs r e, finalize .HEAD cbs r e =
      { (runCallbacks cbs r e).1 with body := some "" }) := by
  have hfirst : get compile routes P H opts =
      (routes ++
        [{ method := .method .GET, path := if P = "*" then "(.*)" else P,
           regexp := re, options := opts, keys := ks, handler := H },
         { method := .method .HEAD, path := if P = "*" then "(.*)" else P,
           regexp := re, options := opts, keys := ks, handler := H }],
       none) := by
    simp only [get, push, hc, List.append_assoc]
    rfl
  refine ⟨hfirst, ?_, ?_⟩
  · intro p ms hre hne
    refine ⟨⟨⟨.method .HEAD, (if P = "*" then "(.*)" else P), re, opts, ks, H⟩,
      keysToParams ms ks, some ms⟩, ?_, rfl, rfl⟩
    rw [hfirst]
    show _ ∈ matchesList (routes ++ _) .HEAD p
    rw [matchesList_append]
    apply List.mem_append_right
    simp only [matchesList, List.flatMap_cons, List.flatMap_nil,
      List.append_nil]
    apply List.mem_append_right
    simp only [routeCandidates, hre]
    rw [if_neg (by simp)]
    rw [if_neg hne]
    apply List.mem_append_right
    exact List.Mem.head _
  · intro cbs r e
    rfl

/-- Witness for C4: `get` at `/a` succeeds (appending GET and HEAD), and a
HEAD finalization keeps status 200 and the headers while emptying the
body the handler produced. -/
theorem get_registers_head_and_strips_witness :
    (get specCompile [] "/a" cEcho {}).2 = none ∧
    finalize .HEAD [] ⟨200, [("x", "y")], some "hello"⟩ none =
      ⟨200, [("x", "y")], some ""⟩ := by
  have h := get_registers_head_and_strips specCompile [] "/a" cEcho {}
    (fun p => if p = "/a" then some [some p] else none) [] rfl
  exact ⟨by rw [h.1], h.2.2 [] ⟨200, [("x", "y")], some "hello"⟩ none⟩

/-- C5 (amended): with GET and POST registered at the same path through the
shorthands, the `allowedMethods` handler answers 204 with `Allow` header
"OPTIONS, GET, HEAD, POST" — OPTIONS first, then the concrete methods in
table scan order with duplicates suppressed and ALL routes skipped; HEAD
appears because the `get` shorthand also registers a HEAD route whose
identical matcher accepts the path. -/
theorem allowedMethods_get_post_allow (compile : Compiler) (hA hB : Handler)
    (opts : RouteOptions) (P : String) (re : Regexp) (ks : List Key)
    (ms : List (Option String)) (ctx : Ctx)
    (hc : compile (if P = "*" then "(.*)" else P) opts = .ok (re, ks))
    (hm : re ctx.request.pathname = some ms) (hne : ms ≠ []) :
    allowedMethods (post compile (get compile [] P hA opts).1 P hB opts).1
      ctx =
      .response { status := 204, headers := [("allow", "OPTIONS, GET, HEAD, POST")], body := none } := by
  simp only [allowedMethods]
  congr 1
  simp only [post, get, push, hc]
  simp only [allowedMethodsResponse, allowedList, List.nil_append,
    List.singleton_append, List.cons_append, List.foldl_cons,
    List.foldl_nil, hm]
  rw [if_neg hne, if_neg hne, if_neg hne]
  rfl

/-- Witness for C5 (amended): the concrete table of `c5table` answers 204
with `Allow: OPTIONS, GET, HEAD, POST`. -/
theorem allowedMethods_get_post_allow_witness :
    allowedMethods c5table
      (mkCtx { method := .OPTIONS, pathname := "/a" } []) =
      .response { status := 204, headers := [("allow", "OPTIONS, GET, HEAD, POST")], body := none } :=
  allowedMethods_get_post_allow specCompile cEcho cEcho {} "/a"
    (fun p => if p = "/a" then some [some p] else none) [] [some "/a"]
    (mkCtx { method := .OPTIONS, pathname := "/a" } []) rfl rfl (by decide)

/-- Counterexample for C5 as stated: on the GET+POST table the `Allow`
header is "OPTIONS, GET, HEAD, POST", not exactly "OPTIONS, GET, POST" —
the HEAD route added by the `get` shorthand is collected too. -/
theorem allowedMethods_exact_counterexample :
    allowedMethods c5table
        (mkCtx { method := .OPTIONS, pathname := "/a" } []) =
      .response { status := 204, headers := [("allow", "OPTIONS, GET, HEAD, POST")], body := none } ∧
    allowedMethods c5table
        (mkCtx { method := .OPTIONS, pathname := "/a" } []) ≠
      .response { status := 204, headers := [("allow", "OPTIONS, GET, POST")], body := none } := by
  constructor
  · rfl
  · intro hEq
    have h1 : HandlerResult.response (allowedMethodsResponse c5table "/a") =
        .response { status := 204, headers := [("allow", "OPTIONS, GET, POST")], body := none } := hEq
    have h2 := HandlerResult.response.inj h1
    exact absurd h2 (by decide)

/-- C6 (amended): registering path `*` stores the catch-all template
`(.*)`, and for a request of a matching method the route matches every
path — but the generator yields two candidates for it: first the fast-path
candidate binding positional parameter "0" to the template string "(.*)"
(the first match the dispatcher consumes), then the regexp candidate
binding "0" to the full request path. -/
theorem star_route_two_candidates (compile : Compiler) (h : Handler)
    (opts : RouteOptions) (mw : MethodW) (meth : Method) (re : Regexp)
    (ks : List Key)
    (hc : compile "(.*)" opts = .ok (re, ks))
    (hre : ∀ p, re p = some [some p, some p])
    (hks : ks = [⟨"0"⟩])
    (hmw : mw = .ALL ∨ mw = .method meth) :
    push compile [] mw "*" h opts =
      ([⟨mw, "(.*)", re, opts, ks, h⟩], none) ∧
    ∀ p, matchesList (push compile [] mw "*" h opts).1 meth p =
      [⟨⟨mw, "(.*)", re, opts, ks, h⟩, [("0", "(.*)")], none⟩,
       ⟨⟨mw, "(.*)", re, opts, ks, h⟩, [("0", p)],
        some [some p, some p]⟩] := by
  subst hks
  have hc' : compile (if "*" = "*" then "(.*)" else "*") opts =
      .ok (re, [⟨"0"⟩]) := hc
  have hpush : push compile [] mw "*" h opts =
      ([⟨mw, "(.*)", re, opts, [⟨"0"⟩], h⟩], none) := by
    have hu : push compile [] mw "*" h opts =
        match compile "(.*)" opts with
        | .error e => (([] : List Route), some e)
        | .ok (regexp, keys) => ([] ++ [⟨mw, "(.*)", regexp, opts, keys, h⟩], none) := rfl
    rw [hu, hc]
    rfl
  refine ⟨hpush, ?_⟩
  intro p
  rw [show (push compile [] mw "*" h opts).1 =
    [⟨mw, "(.*)", re, opts, [⟨"0"⟩], h⟩] from by rw [hpush]]
  simp only [matchesList, List.flatMap_cons, List.flatMap_nil,
    List.append_nil, routeCandidates, hre p]
  rcases hmw with hw | hw <;> rw [hw] <;> rw [if_neg (by simp)] <;> rfl

/-- Witness for C6 (amended): the `GET *` registration yields the two
candidates for `GET /w`, the first binding "0" to the template string. -/
theorem star_route_two_candidates_witness :
    matchesList (push specCompile [] (.method .GET) "*" cEcho {}).1 .GET "/w" =
      [⟨⟨.method .GET, "(.*)", fun p => some [some p, some p], {},
         [⟨"0"⟩], cEcho⟩, [("0", "(.*)")], none⟩,
       ⟨⟨.method .GET, "(.*)", fun p => some [some p, some p], {},
         [⟨"0"⟩], cEcho⟩, [("0", "/w")], some [some "/w", some "/w"]⟩] :=
  (star_route_two_candidates specCompile cEcho {} (.method .GET) .GET
    (fun p => some [some p, some p]) [⟨"0"⟩] rfl (fun _ => rfl) rfl
    (.inr rfl)).2 "/w"

/-- Counterexample for C6 as stated: with a `GET *` route whose handler
echoes the positional parameter into the body, the response of the dispatcher for
`GET /foo` carries "(.*)" — the template string bound by the first consumed
match — not the full request path "/foo". -/
theorem star_full_path_param_counterexample :
    handle c6table c6req =
      { status := 200, headers := [], body := some "(.*)" } ∧
    handle c6table c6req ≠
      { status := 200, headers := [], body := some "/foo" } := by
  constructor
  · rfl
  · decide

/-- C7: a route whose compiled template is exactly the catch-all "(.*)"
and whose method passes the filter makes the generator yield twice on one
pass: the fast-path candidate with the single positional parameter bound to
the template string itself, then the full-regexp candidate with the
captured parameters — the shortcut does not suppress the full match. -/
theorem catchall_double_yield (route : Route) (meth : Method) (p : String)
    (ms : List (Option String))
    (hpath : route.path = "(.*)")
    (hmw : route.method = .ALL ∨ route.method = .method meth)
    (hre : route.regexp p = some ms) (hne : ms ≠ []) :
    routeCandidates meth p route =
      [{ toRoute := route, params := [("0", route.path)] },
       { toRoute := route, params := keysToParams ms route.keys,
         matches_ := some ms }] ∧
    ∀ rs1 rs2, matchesList (rs1 ++ route :: rs2) meth p =
      matchesList rs1 meth p ++
        ([{ toRoute := route, params := [("0", route.path)] },
          { toRoute := route, params := keysToParams ms route.keys,
            matches_ := some ms }] ++ matchesList rs2 meth p) := by
  have key : routeCandidates meth p route =
      [{ toRoute := route, params := [("0", route.path)] },
       { toRoute := route, params := keysToParams ms route.keys,
         matches_ := some ms }] := by
    simp only [routeCandidates, hpath, hre]
    rw [if_neg hne]
    rcases hmw with hw | hw <;> rw [hw] <;> rw [if_neg (by simp)] <;> rfl
  refine ⟨key, ?_⟩
  intro rs1 rs2
  rw [matchesList_append]
  congr 1
  simp only [matchesList, List.flatMap_cons]
  rw [key]

/-- Witness for C7: the concrete catch-all route yields its fast-path
candidate and its full-regexp candidate for `GET /q`, in that order. -/
theorem catchall_double_yield_witness :
    routeCandidates .GET "/q" c1r = [c1fast, c1full "/q"] :=
  (catchall_double_yield c1r .GET "/q" [some "/q", some "/q"] rfl
    (.inl rfl) rfl (by decide)).1

end CloudworkerRouter
